import Mathlib

/-
Verification of the slackv client (src/slackv.go, the later of the two
versions in the file, the one all cited line numbers point into).

Strings are embedded as `List Char`.  Go's byte-indexed operations
(`len`, slicing) coincide with character counts on ASCII data, which is
what every regression input here uses.  A Go run-time panic (an
unchecked type assertion that fails, or indexing an empty slice) is
modelled by `Option`: `none` means the handler panicked and the process
aborted.
-/

namespace Slackv

/-- Character-list strings, the shallow embedding of Go `string`. -/
abbrev Str := List Char

/-- Go `map[string]string` with its insertion-order-independent lookup is
embedded as an association list where an insert shadows older entries. -/
abbrev Cache := List (Str × Str)

/-- Lookup in the id-name map; `none` when the key was never inserted. -/
def cacheFind : Cache → Str → Option Str
  | [], _ => none
  | p :: rest, key => if p.1 == key then some p.2 else cacheFind rest key

/-- Go map read `m[k]`, which yields the zero value `""` on a missing key. -/
def cacheGet (c : Cache) (key : Str) : Str := (cacheFind c key).getD []

/-- Go map write `m[k] = v`: the new binding shadows any older one. -/
def cacheInsert (c : Cache) (k v : Str) : Cache := (k, v) :: c

--==============================
-- text normalizer (unescape, slackv.go:1269-1282)
--==============================

/-- Character class `[^>|]` used for the id part of all three markup
patterns `<@...>`, `<#...>`, `<!...>`. -/
def notDelim (ch : Char) : Bool := !(ch == '>' || ch == '|')

/-- Character class `[^>]` used for the optional `|label` part. -/
def notGt (ch : Char) : Bool := !(ch == '>')

/-- Matcher for the body of `<c id (|label)? >` after the opening `<c`:
the greedy run of `[^>|]+` (nonempty), then either `>` directly or
`|label>` with a nonempty `[^>]+` label.  Returns `(id, label?, rest)`
where `rest` is the text after the closing `>`.  This is exactly the set
of strings the Go regexes `<[@#!]([^>|]+)(\|([^>]+))?>` accept at a
position, with the same greedy submatches. -/
def matchRefAux (l : Str) : Option (Str × Option Str × Str) :=
  match l.takeWhile notDelim, l.dropWhile notDelim with
  | [], _ => none
  | id, b :: rest =>
    if b = '>' then some (id, none, rest)
    else if b = '|' then
      match rest.takeWhile notGt, rest.dropWhile notGt with
      | [], _ => none
      | lab, b2 :: rest2 => if b2 = '>' then some (id, some lab, rest2) else none
      | _, _ => none
    else none
  | _, _ => none

/-- Match one markup reference `<c...>` at the head of the text. -/
def matchRef (c : Char) : Str → Option (Str × Option Str × Str)
  | a :: b :: t => if a = '<' ∧ b = c then matchRefAux t else none
  | _ => none

/-- Leftmost markup match in a text: `(prefix, id, label?, rest)`, the Go
`Regexp.Find...` search the replacement functions are built on. -/
def findRef (c : Char) : Str → Option (Str × Str × Option Str × Str)
  | [] => none
  | x :: xs =>
    match matchRef c (x :: xs) with
    | some (id, lab, rest) => some ([], id, lab, rest)
    | none => (findRef c xs).map (fun r => (x :: r.1, r.2.1, r.2.2.1, r.2.2.2))

/-- One pass of `Regexp.ReplaceAllString`: replace every non-overlapping
leftmost match, never rescanning replacement text.  The fuel is the text
length, which bounds the number of scan steps since every step consumes
at least one character. -/
def scanRefFuel (c : Char) (repl : Str → Option Str → Str) : Nat → Str → Str
  | 0, t => t
  | _ + 1, [] => []
  | n + 1, x :: xs =>
    match matchRef c (x :: xs) with
    | some (id, lab, rest) => repl id lab ++ scanRefFuel c repl n rest
    | none => x :: scanRefFuel c repl n xs

/-- Replace all matches of `<c...>` in a text. -/
def scanRef (c : Char) (repl : Str → Option Str → Str) (t : Str) : Str :=
  scanRefFuel c repl t.length t

/-- Go: `g_ChannelPattern.ReplaceAllString(text, "#$3")` — submatch 3 is
the label without its pipe, empty when the reference has no label. -/
def channelPass (t : Str) : Str :=
  scanRef '#' (fun _ lab => '#' :: lab.getD []) t

/-- Go: `g_KeywordPattern.ReplaceAllString(text, "@$2")` — submatch 2 is
the optional group including its leading `|`. -/
def keywordPass (t : Str) : Str :=
  scanRef '!' (fun _ lab => '@' :: (match lab with | some l => '|' :: l | none => [])) t

/-- One iteration of the mention loop: find the leftmost `<@id(|label)?>`
and splice in `"@" + g_IdNameMap[id]`, dropping the label. -/
def mentionStep (cache : Cache) (t : Str) : Option Str :=
  (findRef '@' t).map (fun r => r.1 ++ '@' :: cacheGet cache r.2.1 ++ r.2.2.2)

/-- The Go `for isMatching` mention loop, run for at most `fuel`
iterations.  The source iterates until no match remains; `unescape`
passes fuel that provably reaches that fixpoint whenever the Go loop
terminates (cached names that re-introduce mention markup make the Go
loop diverge, which here surfaces as fuel exhaustion). -/
def mentionLoop (cache : Cache) : Nat → Str → Str
  | 0, t => t
  | n + 1, t =>
    match mentionStep cache t with
    | none => t
    | some t2 => mentionLoop cache n t2

/-- Number of `<` characters: every mention replacement with markup-free
cached names strictly lowers it, so it bounds the loop's iterations. -/
def ltCount (t : Str) : Nat := t.countP (· == '<')

/-- Html entity name table: the entities the model resolves.  This is the
subset of Go `html.UnescapeString`'s table exercised by slack traffic
(slack escapes exactly `&`, `<`, `>`). -/
def namedEntity (name : Str) : Option Char :=
  if name == ("amp").toList then some '&'
  else if name == ("lt").toList then some '<'
  else if name == ("gt").toList then some '>'
  else if name == ("quot").toList then some '"'
  else none

/-- Digit run to number, for numeric character references. -/
def digitsToNat (s : Str) : Nat := s.foldl (fun acc c => acc * 10 + (c.toNat - '0'.toNat)) 0

/-- Parse one entity body after `&`: `#digits;` or a named entity with
its closing `;`.  Returns the decoded character and the rest. -/
def parseEntity (l : Str) : Option (Char × Str) :=
  match l with
  | x :: rest =>
    if x = '#' then
      match rest.takeWhile (·.isDigit), rest.dropWhile (·.isDigit) with
      | [], _ => none
      | ds, b :: rest2 => if b = ';' then some (Char.ofNat (digitsToNat ds), rest2) else none
      | _, _ => none
    else
      match l.takeWhile (·.isAlpha), l.dropWhile (·.isAlpha) with
      | [], _ => none
      | nm, b :: rest2 =>
        if b = ';' then (namedEntity nm).map (fun c => (c, rest2)) else none
      | _, _ => none
  | [] => none

/-- Model of Go `html.UnescapeString` (single left-to-right pass, output
not rescanned), restricted to semicolon-terminated named and decimal
entities; text without `&` is returned unchanged, exactly as in Go.
The fuel is the text length, enough since each step consumes a char. -/
def htmlUnescapeFuel : Nat → Str → Str
  | 0, t => t
  | _ + 1, [] => []
  | n + 1, x :: rest =>
    if x = '&' then
      match parseEntity rest with
      | some (c, rest2) => c :: htmlUnescapeFuel n rest2
      | none => '&' :: htmlUnescapeFuel n rest
    else x :: htmlUnescapeFuel n rest

/-- Entry point of the html entity decoding stage. -/
def htmlUnescape (t : Str) : Str := htmlUnescapeFuel t.length t

/-- The normalizer `unescape` (slackv.go:1269-1282): channel pass, then
keyword pass, then the mention fixpoint loop, then html unescaping. -/
def unescape (cache : Cache) (t : Str) : Str :=
  let t1 := channelPass t
  let t2 := keywordPass t1
  let t3 := mentionLoop cache (ltCount t2 + 1) t2
  htmlUnescape t3

--==============================
-- inbound frames (decoded JSON)
--==============================

/-- Decoded JSON values as `encoding/json` produces them into
`map[string]interface{}`.  Numbers and nulls never occur in the fields
the handlers read (slack timestamps are strings), so they are omitted. -/
inductive JValue where
  | jstr : Str → JValue
  | jbool : Bool → JValue
  | jobj : List (Str × JValue) → JValue
  | jarr : List JValue → JValue

/-- A decoded frame or nested object. -/
abbrev JObj := List (Str × JValue)

/-- Field access `m[k]` on a decoded object. -/
def jlookup (m : JObj) (k : Str) : Option JValue :=
  (m.find? (fun p => p.1 == k)).map (fun p => p.2)

/-- Unchecked Go assertion `v.(string)`: panics (`none`) unless the field
is present and a string. -/
def asString : Option JValue → Option Str
  | some (JValue.jstr s) => some s
  | _ => none

/-- Comma-ok Go assertion `m[k].(string)`: `none` when the field is
absent or not a string, never a panic. -/
def strField (m : JObj) (k : Str) : Option Str :=
  match jlookup m k with
  | some (JValue.jstr s) => some s
  | _ => none

--==============================
-- field accessors (slackv.go:1098-1172)
--==============================

/-- Accessor `getChannel`: missing channel is `""`; a present non-string
channel panics on the inner `.(string)` assertion. -/
def getChannel (cache : Cache) (m : JObj) : Option Str :=
  match jlookup m (("channel").toList) with
  | none => some []
  | some (JValue.jstr id) => some (cacheGet cache id)
  | some _ => none

/-- Accessor `getUserType`: presence flags only, never panics. -/
def getUserType (m : JObj) : Str :=
  (if (jlookup m (("bot_id").toList)).isSome then ("[bot]").toList else []) ++
    (if (jlookup m (("app_id").toList)).isSome then ("[app]").toList else [])

/-- Accessor `getUser`: resolved through the id-name map, `""` when the
field is absent. -/
def getUser (cache : Cache) (m : JObj) : Option Str :=
  match jlookup m (("user").toList) with
  | none => some []
  | some (JValue.jstr id) => some (cacheGet cache id)
  | some _ => none

/-- Accessor `getBot`: like `getUser` but on `bot_id`. -/
def getBot (cache : Cache) (m : JObj) : Option Str :=
  match jlookup m (("bot_id").toList) with
  | none => some []
  | some (JValue.jstr id) => some (cacheGet cache id)
  | some _ => none

/-- Accessor `getText`: absent text is `""`, present non-string text
panics. -/
def getText (m : JObj) : Option Str :=
  match jlookup m (("text").toList) with
  | none => some []
  | some (JValue.jstr s) => some s
  | some _ => none

/-- Integer part of a slack decimal timestamp string; `0` for anything
`strconv.ParseFloat` rejects, since the source discards the error and
keeps the zero value.  This models `ParseFloat` + `int64` truncation,
exact for slack-style nonnegative timestamps (integer part below 2^53). -/
def parseTsInt (s : Str) : Nat :=
  match s.takeWhile (·.isDigit), s.dropWhile (·.isDigit) with
  | [], _ => 0
  | ds, [] => digitsToNat ds
  | ds, '.' :: frac => if !frac.isEmpty && frac.all (·.isDigit) then digitsToNat ds else 0
  | _, _ => 0

/-- Accessor `getTimestamp`: `time.Unix(0,0)` (here `0`) when `ts` is
absent; a present non-string `ts` panics. -/
def getTimestamp (m : JObj) : Option Nat :=
  match jlookup m (("ts").toList) with
  | none => some 0
  | some (JValue.jstr s) => some (parseTsInt s)
  | some _ => none

/-- Accessor `getThreadTs`, same shape on `thread_ts`. -/
def getThreadTs (m : JObj) : Option Nat :=
  match jlookup m (("thread_ts").toList) with
  | none => some 0
  | some (JValue.jstr s) => some (parseTsInt s)
  | some _ => none

/-- Accessor `getTitle`: absent is `""`, present non-string panics. -/
def getTitle (m : JObj) : Option Str :=
  match jlookup m (("title").toList) with
  | none => some []
  | some (JValue.jstr s) => some s
  | some _ => none

/-- Accessor `isPreviewTruncated`: absent is `false`, present non-bool
panics. -/
def isPreviewTruncated (m : JObj) : Option Bool :=
  match jlookup m (("preview_is_truncated").toList) with
  | none => some false
  | some (JValue.jbool b) => some b
  | some _ => none

--==============================
-- ANSI escape fragments used by the renderer
--==============================

/-- Blue-background prefix for attachment/file titles. -/
def esc44 : Str := ("\x1b[44m").toList

/-- Style reset. -/
def esc0 : Str := ("\x1b[0m").toList

/-- Style reset followed by the newline that closes a boxed title. -/
def esc0nl : Str := ("\x1b[0m\n").toList

/-- Yellow prefix used by the edited annotation. -/
def esc93 : Str := ("\x1b[93m").toList

/-- Italic-grey prefix of `/me` messages. -/
def escMe : Str := ("\x1b[3m\x1b[90m").toList

/-- Blink-highlight prefix for notification matches. -/
def escHl : Str := ("\x1b[5;95m").toList

/-- The `" (edited)"` annotation string of `onMessageChanged`. -/
def editedAnn : Str := (" ").toList ++ esc93 ++ ("(edited)").toList ++ esc0

/-- ASCII model of `strings.TrimSpace`'s whitespace class. -/
def isSpaceChar (c : Char) : Bool := c == ' ' || c == '\t' || c == '\n' || c == '\r'

/-- Model of `strings.TrimSpace` (leading and trailing whitespace). -/
def trimSpace (s : Str) : Str :=
  ((s.dropWhile isSpaceChar).reverse.dropWhile isSpaceChar).reverse

--==============================
-- attachment text (slackv.go:1174-1211)
--==============================

/-- Function `getAttachmentText`: builds the boxed title from
service_name, author_name and footer, and the body from text (falling
back to fallback), truncating bodies over 1000 to 1000 plus `"..."`.
The source reads the attachment `title` field into a local that SHADOWS
the outer `title` variable (`if title, exist := attachment["title"]...`),
so that field never reaches the outer title; the model reproduces that by
not consulting it.  All field reads use comma-ok assertions, so this
function never panics. -/
def getAttachmentText (att : JObj) : Str × Str :=
  let title : Str :=
    match strField att (("service_name").toList) with
    | some s => s ++ (": ").toList
    | none => []
  let title :=
    match strField att (("author_name").toList) with
    | some s => title ++ s ++ (" ").toList
    | none => title
  let title :=
    match strField att (("footer").toList) with
    | some s => title ++ (" (").toList ++ s ++ (") ").toList
    | none => title
  let title := if title.length > 0 then esc44 ++ trimSpace title ++ esc0nl else title
  let text :=
    match strField att (("text").toList) with
    | some s => s
    | none => (strField att (("fallback").toList)).getD []
  let text := if text.length > 1000 then text.take 1000 ++ ("...").toList else text
  (text, title)

/-- Function `getAttachmentsText`: reads the first attachment.  The Go
code indexes `attachments[0]` without a bounds check, so an attachments
field that decodes to an EMPTY array panics; a missing or non-array
field, or a non-object first element, yields `("", "")`. -/
def getAttachmentsText (m : JObj) : Option (Str × Str) :=
  match jlookup m (("attachments").toList) with
  | some (JValue.jarr []) => none
  | some (JValue.jarr (JValue.jobj att :: _)) => some (getAttachmentText att)
  | some (JValue.jarr (_ :: _)) => some ([], [])
  | _ => some ([], [])

--==============================
-- render pipeline (printMessage, slackv.go:1214-1267)
--==============================

/-- Arguments of one `printMessage` call: one render request. -/
structure RenderReq where
  ts : Nat
  threadTs : Nat
  channel : Str
  userType : Str
  user : Str
  text : Str
  ann : Str
deriving DecidableEq

/-- Side effects a handler performs, in order: `printMessage` calls,
the `g_LastUser = ""` reset, and id-name map writes. -/
inductive Action where
  | print : RenderReq → Action
  | resetLastUser : Action
  | setName : Str → Str → Action
deriving DecidableEq

/-- Immutable notification configuration.  Compiled highlight regexes
are embedded as opaque text predicates. -/
structure NotificationConfig where
  patterns : List (Str → Bool)
  muteChannels : List Str
  muteUsers : List Str

/-- The process-lifetime mutable globals: `g_IdNameMap`, `g_LastUser`,
`g_LastChannel`, `g_LastThreadTs`. -/
structure AppState where
  idNameMap : Cache
  lastUser : Str
  lastChannel : Str
  lastThreadTs : Nat
deriving DecidableEq

/-- One emitted line item: the blank separator before a channel-change
header, a header, or a body line. -/
inductive OutLine where
  | sep : OutLine
  | header : Str → Str → Nat → Nat → OutLine
  | body : Str → Str → OutLine
deriving DecidableEq

/-- Function `equalsAnyKeywords`: exact match against a mute list. -/
def equalsAnyKeywords (text : Str) (keywords : List Str) : Bool :=
  keywords.any (fun k => text == k)

/-- Function `matchAnyPatterns` over the compiled highlight patterns. -/
def matchAnyPatterns (text : Str) (ps : List (Str → Bool)) : Bool :=
  ps.any (fun p => p text)

/-- Function `printMessage`: mute suppression, empty-body suppression,
header decision against the last-rendered state, normalization and
highlighting of the body, then the state update. -/
def printMessage (cfg : NotificationConfig) (s : AppState)
    (ts threadTs : Nat) (channel userType user text ann : Str) :
    AppState × List OutLine :=
  if equalsAnyKeywords channel cfg.muteChannels then (s, [])
  else if equalsAnyKeywords user cfg.muteUsers then (s, [])
  else if text.length == 0 then (s, [])
  else
    let headerLines : List OutLine :=
      if channel ≠ s.lastChannel then
        [OutLine.sep, OutLine.header (userType ++ user) channel ts threadTs]
      else if user ≠ s.lastUser ∨ threadTs ≠ s.lastThreadTs then
        [OutLine.header (userType ++ user) channel ts threadTs]
      else []
    let text1 := unescape s.idNameMap text
    let text2 := if matchAnyPatterns text1 cfg.patterns then escHl ++ text1 ++ esc0 else text1
    ({ s with lastChannel := channel, lastUser := user, lastThreadTs := threadTs },
      headerLines ++ [OutLine.body text2 ann])

/-- Run one handler side effect against the global state. -/
def execAction (cfg : NotificationConfig) (s : AppState) : Action → AppState × List OutLine
  | Action.print r => printMessage cfg s r.ts r.threadTs r.channel r.userType r.user r.text r.ann
  | Action.resetLastUser => ({ s with lastUser := [] }, [])
  | Action.setName k v => ({ s with idNameMap := cacheInsert s.idNameMap k v }, [])

/-- Run a handler's side effects in order. -/
def execActions (cfg : NotificationConfig) (s : AppState) : List Action → AppState × List OutLine
  | [] => (s, [])
  | a :: rest =>
    let r1 := execAction cfg s a
    let r2 := execActions cfg r1.1 rest
    (r2.1, r1.2 ++ r2.2)

--==============================
-- message handlers (slackv.go:926-1096)
--==============================

/-- Handler for a plain message (no subtype).  The accessors run in
source order; `msg["text"].(string)` is an UNCHECKED assertion, so a
missing (or non-string) text field panics — unlike user and channel,
which go through checked accessors. -/
def onPureMessage (cache : Cache) (msg : JObj) : Option (List Action) := do
  let ts ← getTimestamp msg
  let threadTs ← getThreadTs msg
  let channel ← getChannel cache msg
  let userType := getUserType msg
  let user ← getUser cache msg
  let text ← asString (jlookup msg (("text").toList))
  some [Action.print ⟨ts, threadTs, channel, userType, user, text, []⟩]

/-- Handler for `bot_message`: attachment title+text replace the body
when a first attachment object exists (also forcing the next header via
the last-user reset); indexing an empty attachments array panics. -/
def onMessageBot (cache : Cache) (msg : JObj) : Option (List Action) := do
  let ts ← getTimestamp msg
  let threadTs ← getThreadTs msg
  let channel ← getChannel cache msg
  let userType := getUserType msg
  let user ← getBot cache msg
  let text ← getText msg
  match jlookup msg (("attachments").toList) with
  | some (JValue.jarr []) => none
  | some (JValue.jarr (JValue.jobj att :: _)) =>
    let r := getAttachmentText att
    some [Action.print ⟨ts, threadTs, channel, userType, user, r.2 ++ r.1, []⟩,
      Action.resetLastUser]
  | _ => some [Action.print ⟨ts, threadTs, channel, userType, user, text, []⟩]

/-- Handler for `file_comment`: returns silently without file or comment
objects; `comment["comment"].(string)` is unchecked and panics when
absent. -/
def onMessageFileComment (cache : Cache) (msg : JObj) : Option (List Action) :=
  match jlookup msg (("file").toList), jlookup msg (("comment").toList) with
  | some (JValue.jobj file), some (JValue.jobj comment) => do
    let ts ← getTimestamp msg
    let threadTs ← getThreadTs msg
    let channel ← getChannel cache msg
    let userType := getUserType msg
    let user ← getUser cache comment
    let fileTitle ← getTitle file
    let title := ("comment to: ").toList ++ fileTitle
    let text ← asString (jlookup comment (("comment").toList))
    let boxed := esc44 ++ trimSpace title ++ esc0nl
    some [Action.print ⟨ts, threadTs, channel, userType, user, boxed ++ text, []⟩,
      Action.resetLastUser]
  | _, _ => some []

/-- Handler for `file_share`: preview body when the file has one (with
the `"..."` marker when the service reports truncation), otherwise the
frame text via an unchecked assertion. -/
def onMessageFileShare (cache : Cache) (msg : JObj) : Option (List Action) :=
  match jlookup msg (("file").toList) with
  | some (JValue.jobj file) => do
    let ts ← getTimestamp msg
    let threadTs ← getThreadTs msg
    let channel ← getChannel cache msg
    let userType := getUserType msg
    let user ← getUser cache msg
    let fileTitle ← getTitle file
    let title := ("file: ").toList ++ fileTitle
    let text ←
      match strField file (("preview").toList) with
      | some preview => do
        let trunc ← isPreviewTruncated file
        let preview := if trunc then preview ++ ("...").toList else preview
        some (esc44 ++ trimSpace title ++ esc0nl ++ preview)
      | none => asString (jlookup msg (("text").toList))
    some [Action.print ⟨ts, threadTs, channel, userType, user, text, []⟩,
      Action.resetLastUser]
  | _ => some []

/-- Handler for `me_message`: italic-grey wrapped text, unchecked text
assertion like the plain handler. -/
def onMessageMe (cache : Cache) (msg : JObj) : Option (List Action) := do
  let ts ← getTimestamp msg
  let threadTs ← getThreadTs msg
  let channel ← getChannel cache msg
  let userType := getUserType msg
  let user ← getUser cache msg
  let raw ← asString (jlookup msg (("text").toList))
  some [Action.print ⟨ts, threadTs, channel, userType, user, escMe ++ raw ++ esc0, []⟩]

/-- Handler for `message_changed` (slackv.go:1050-1081): silently
returns without the nested message or previous_message objects; prints
the new text with the edited annotation when the visible text changed,
and prints the first attachment's rendered title+text (resetting the
last user) when THAT changed.  Output that the Go code emits before a
later panic is not modelled: `none` stands for the whole aborted call. -/
def onMessageChanged (cache : Cache) (msg : JObj) : Option (List Action) :=
  match jlookup msg (("message").toList), jlookup msg (("previous_message").toList) with
  | some (JValue.jobj message), some (JValue.jobj prevMessage) => do
    let ts ← getTimestamp message
    let threadTs ← getThreadTs msg
    let channel ← getChannel cache msg
    let userType := getUserType msg
    let user ← getUser cache message
    let text ← getText message
    let prevText ← getText prevMessage
    let first :=
      if text == prevText then []
      else [Action.print ⟨ts, threadTs, channel, userType, user, text, editedAnn⟩]
    let att ← getAttachmentsText message
    let attText := att.2 ++ att.1
    let prevAtt ← getAttachmentsText prevMessage
    let prevAttText := prevAtt.2 ++ prevAtt.1
    let second :=
      if attText == prevAttText then []
      else [Action.print ⟨ts, threadTs, channel, userType, user, attText, []⟩,
        Action.resetLastUser]
    some (first ++ second)
  | _, _ => some []

/-- Handler for `message_replied` (slackv.go:1083-1096): renders the
nested message — this subtype is NOT dropped in the version under
verification. -/
def onMessageReplied (cache : Cache) (msg : JObj) : Option (List Action) :=
  match jlookup msg (("message").toList) with
  | some (JValue.jobj message) => do
    let ts ← getTimestamp message
    let threadTs ← getThreadTs message
    let channel ← getChannel cache msg
    let userType := getUserType message
    let user ← getUser cache message
    let text ← getText message
    some [Action.print ⟨ts, threadTs, channel, userType, user, text, []⟩]
  | _ => some []

/-- Subtype dispatcher `onMessage` (slackv.go:926-945).  A `nil`
subtype (absent field) goes to the plain handler; `file_mention` and
every unrecognized or non-string subtype fall through silently. -/
def onMessage (cache : Cache) (msg : JObj) : Option (List Action) :=
  match jlookup msg (("subtype").toList) with
  | none => onPureMessage cache msg
  | some (JValue.jstr s) =>
    if s == ("bot_message").toList then onMessageBot cache msg
    else if s == ("file_comment").toList then onMessageFileComment cache msg
    else if s == ("file_mention").toList then some []
    else if s == ("file_share").toList then onMessageFileShare cache msg
    else if s == ("me_message").toList then onMessageMe cache msg
    else if s == ("message_changed").toList then onMessageChanged cache msg
    else if s == ("message_replied").toList then onMessageReplied cache msg
    else some []
  | some _ => some []

--==============================
-- maintenance handlers (slackv.go:894-907, 1306-1320)
--==============================

/-- Handler `onBotAdded`: nested object and string assertions are all
unchecked, so malformed frames panic. -/
def onBotAdded (msg : JObj) : Option (List Action) :=
  match jlookup msg (("bot").toList) with
  | some (JValue.jobj bot) => do
    let id ← asString (jlookup bot (("id").toList))
    let name ← asString (jlookup bot (("name").toList))
    some [Action.setName id name]
  | _ => none

/-- Handler `onChannelCreated`, same shape on the `channel` object. -/
def onChannelCreated (msg : JObj) : Option (List Action) :=
  match jlookup msg (("channel").toList) with
  | some (JValue.jobj ch) => do
    let id ← asString (jlookup ch (("id").toList))
    let name ← asString (jlookup ch (("name").toList))
    some [Action.setName id name]
  | _ => none

/-- Handler `onTeamJoin`, same shape on the `user` object. -/
def onTeamJoin (msg : JObj) : Option (List Action) :=
  match jlookup msg (("user").toList) with
  | some (JValue.jobj u) => do
    let id ← asString (jlookup u (("id").toList))
    let name ← asString (jlookup u (("name").toList))
    some [Action.setName id name]
  | _ => none

/-- Handler `onUserChange`, identical to `onTeamJoin` in the source. -/
def onUserChange (msg : JObj) : Option (List Action) :=
  match jlookup msg (("user").toList) with
  | some (JValue.jobj u) => do
    let id ← asString (jlookup u (("id").toList))
    let name ← asString (jlookup u (("name").toList))
    some [Action.setName id name]
  | _ => none

/-- One iteration of `receiveRoutine`'s body (slackv.go:850-888) for an
already-decoded frame.  The loop first evaluates
`g_IgnoreMessageTypes[msg["type"].(string)]`, so a frame without a
string `type` field panics before any dispatch; `hello`,
`channel_joined`, `group_joined` and unknown types produce nothing. -/
def handleFrame (cache : Cache) (msg : JObj) : Option (List Action) := do
  let tstr ← asString (jlookup msg (("type").toList))
  if tstr == ("hello").toList then some []
  else if tstr == ("bot_added").toList then onBotAdded msg
  else if tstr == ("channel_created").toList then onChannelCreated msg
  else if tstr == ("channel_joined").toList then some []
  else if tstr == ("group_joined").toList then some []
  else if tstr == ("message").toList then onMessage cache msg
  else if tstr == ("team_join").toList then onTeamJoin msg
  else if tstr == ("user_change").toList then onUserChange msg
  else some []

--==============================
-- session and connection lifecycle (slackv.go:697-785, 824-847)
--==============================

/-- The session payload fields `generateIdNameMap` reads. -/
structure SlackUser where
  id : Str
  name : Str

/-- Channel entry of the session (only id and name are read). -/
structure SlackChannel where
  id : Str
  name : Str

/-- Group entry of the session. -/
structure SlackGroup where
  id : Str
  name : Str

/-- Multiparty-IM entry of the session. -/
structure SlackMpim where
  id : Str
  name : Str

/-- Direct-message entry: resolves through the member user's id. -/
structure SlackIm where
  id : Str
  userId : Str

/-- Bot entry of the session. -/
structure SlackBot where
  id : Str
  name : Str

/-- The `rtm.start` session payload (the parts the cache is built from). -/
structure SlackSession where
  users : List SlackUser
  bots : List SlackBot
  channels : List SlackChannel
  groups : List SlackGroup
  mpims : List SlackMpim
  ims : List SlackIm

/-- Function `generateIdNameMap` (slackv.go:824-847): inserts users,
bots, channels, groups and mpims in order, then resolves each IM name
through the map built so far. -/
def generateIdNameMap (session : SlackSession) : Cache :=
  let r := session.users.foldl (fun r u => cacheInsert r u.id u.name) ([] : Cache)
  let r := session.bots.foldl (fun r b => cacheInsert r b.id b.name) r
  let r := session.channels.foldl (fun r c => cacheInsert r c.id c.name) r
  let r := session.groups.foldl (fun r g => cacheInsert r g.id g.name) r
  let r := session.mpims.foldl (fun r m => cacheInsert r m.id m.name) r
  session.ims.foldl (fun r im => cacheInsert r im.id (cacheGet r im.userId)) r

/-- Observable connection-lifetime events: a successful `connect` (which
executes `g_IdNameMap = generateIdNameMap(session)`, slackv.go:777) or
one received frame. -/
inductive ConnEvent where
  | connected : SlackSession → ConnEvent
  | frame : JObj → ConnEvent

/-- Effect of one connection event on the globals and the transcript. -/
def connStep (cfg : NotificationConfig) (s : AppState) :
    ConnEvent → Option (AppState × List OutLine)
  | ConnEvent.connected session =>
    some ({ s with idNameMap := generateIdNameMap session }, [])
  | ConnEvent.frame msg =>
    (handleFrame s.idNameMap msg).map (fun acts => execActions cfg s acts)

/-- Run a sequence of connection events. -/
def runEvents (cfg : NotificationConfig) (s : AppState) :
    List ConnEvent → Option (AppState × List OutLine)
  | [] => some (s, [])
  | e :: rest =>
    match connStep cfg s e with
    | none => none
    | some r1 => (runEvents cfg r1.1 rest).map (fun r2 => (r2.1, r1.2 ++ r2.2))

--==============================
-- reconnect backoff (main, slackv.go:697-742)
--==============================

/-- Post-sleep update of `waitNS`: double, cap at 15 (units of one
second). -/
def nextWait (w : Nat) : Nat := min (w * 2) 15

/-- Wait before the k-th retry under uninterrupted failure, starting
from the initial `waitNS = 1`. -/
def waitSeq : Nat → Nat
  | 0 => 1
  | n + 1 => nextWait (waitSeq n)

/-- Outcome of one `main`-loop iteration's connect attempt. -/
inductive ConnOutcome where
  | failure : ConnOutcome
  | success : ConnOutcome

/-- One `main`-loop iteration viewed as (sleep performed before the next
attempt, wait value carried into it).  A failed connect sleeps the
current wait and doubles it; a successful connect RESETS the wait to 1
before the receive loop, so when the stream later fails the sleep is 1
and the carried wait is `nextWait 1`. -/
def loopIter (w : Nat) : ConnOutcome → Nat × Nat
  | ConnOutcome.failure => (w, nextWait w)
  | ConnOutcome.success => (1, nextWait 1)

--==============================
-- shared concrete fixtures
--==============================

/-- Empty notification configuration (no highlights, no mutes). -/
def cfg0 : NotificationConfig := ⟨[], [], []⟩

/-- The globals as initialized at process start. -/
def sInit : AppState := ⟨[], [], [], 0⟩

--==============================
-- observation helpers and concrete fixtures for the claims
--==============================

/-- Number of header lines in an output fragment. -/
def countHeaders (o : List OutLine) : Nat :=
  o.countP (fun l => match l with | OutLine.header _ _ _ _ => true | _ => false)

/-- Number of blank separator lines in an output fragment. -/
def countSeps (o : List OutLine) : Nat :=
  o.countP (fun l => match l with | OutLine.sep => true | _ => false)

/-- Number of body lines in an output fragment. -/
def countBodies (o : List OutLine) : Nat :=
  o.countP (fun l => match l with | OutLine.body _ _ => true | _ => false)

/-- Render two consecutive entries starting from the fresh render state
(the situation of the header-suppression property). -/
def renderPair (cache : Cache) (e1 e2 : RenderReq) : List OutLine :=
  let r1 := printMessage cfg0 ⟨cache, [], [], 0⟩
    e1.ts e1.threadTs e1.channel e1.userType e1.user e1.text e1.ann
  let r2 := printMessage cfg0 r1.1
    e2.ts e2.threadTs e2.channel e2.userType e2.user e2.text e2.ann
  r1.2 ++ r2.2

/-- A `message_changed` frame around a new and a previous nested message. -/
def chgFrame (m p : JObj) : JObj :=
  [(("message").toList, JValue.jobj m), (("previous_message").toList, JValue.jobj p)]

/-- The first attachment's content as `onMessageChanged` compares it:
boxed title concatenated with (possibly truncated) body text. -/
def attRendered (m : JObj) : Option Str :=
  (getAttachmentsText m).map (fun r => r.2 ++ r.1)

/-- An id-name map whose one entry re-introduces mention markup: a user
literally named `<@X>`. -/
def badCache : Cache := [(("X").toList, ("<@X>").toList)]

/-- Text whose single mention resolves through `badCache`. -/
def badSeed : Str := ("<@X>").toList

/-- Shape of the text after n iterations of the mention loop on
`badSeed` under `badCache`: a growing run of `@` before the mention. -/
def badGrow (n : Nat) : Str := List.replicate n '@' ++ badSeed

/-- A no-subtype message frame carrying channel and user but NO text. -/
def c1frame : JObj := [(("type").toList, JValue.jstr (("message").toList)),
  (("channel").toList, JValue.jstr (("C1").toList)),
  (("user").toList, JValue.jstr (("U1").toList))]

/-- A no-subtype message frame whose only extra field is its text. -/
def pureTextFrame (t : Str) : JObj :=
  [(("type").toList, JValue.jstr (("message").toList)),
    (("text").toList, JValue.jstr t)]

/-- The channel cache of the spec's markup regression cases. -/
def cacheG : Cache := [(("G01234").toList, ("test_group").toList)]

/-- The user-group cache of the spec's subteam regression case. -/
def cacheS : Cache := [(("S1A2B3C4D").toList, ("hoge-piyo").toList)]

/-- A no-subtype message frame with a 1001-character text body. -/
def c4frame : JObj := pureTextFrame (List.replicate 1001 'a')

/-- An attachment whose text field has 1001 characters. -/
def c4att : JObj := [(("text").toList, JValue.jstr (List.replicate 1001 'a'))]

/-- A `message_replied` frame with a threaded nested message. -/
def c5frame : JObj := [(("type").toList, JValue.jstr (("message").toList)),
  (("subtype").toList, JValue.jstr (("message_replied").toList)),
  (("message").toList, JValue.jobj [(("user").toList, JValue.jstr (("U").toList)),
    (("text").toList, JValue.jstr (("hi").toList)),
    (("thread_ts").toList, JValue.jstr (("5").toList))])]

/-- A minimal `message_replied` frame with symbolic user and text. -/
def repliedFrame (u t : Str) : JObj :=
  [(("type").toList, JValue.jstr (("message").toList)),
    (("subtype").toList, JValue.jstr (("message_replied").toList)),
    (("message").toList, JValue.jobj [(("user").toList, JValue.jstr u),
      (("text").toList, JValue.jstr t)])]

/-- A `file_mention` message frame. -/
def fmFrame : JObj := [(("type").toList, JValue.jstr (("message").toList)),
  (("subtype").toList, JValue.jstr (("file_mention").toList))]

/-- An empty session payload. -/
def s6 : SlackSession := ⟨[], [], [], [], [], []⟩

/-- A `user_change` frame introducing the id-name entry U1 -> alice. -/
def ucFrame : JObj := [(("type").toList, JValue.jstr (("user_change").toList)),
  (("user").toList, JValue.jobj [(("id").toList, JValue.jstr (("U1").toList)),
    (("name").toList, JValue.jstr (("alice").toList))])]

/-- Attachment with title "a" and body "body". -/
def c7attA : JObj := [(("title").toList, JValue.jstr (("a").toList)),
  (("text").toList, JValue.jstr (("body").toList))]

/-- Attachment identical to `c7attA` except the title is "b". -/
def c7attB : JObj := [(("title").toList, JValue.jstr (("b").toList)),
  (("text").toList, JValue.jstr (("body").toList))]

/-- Edited message whose first attachment is `c7attA`. -/
def c7m : JObj := [(("ts").toList, JValue.jstr (("1").toList)),
  (("user").toList, JValue.jstr (("U").toList)),
  (("text").toList, JValue.jstr (("hi").toList)),
  (("attachments").toList, JValue.jarr [JValue.jobj c7attA])]

/-- Same message except its first attachment is `c7attB`. -/
def c7p : JObj := [(("ts").toList, JValue.jstr (("1").toList)),
  (("user").toList, JValue.jstr (("U").toList)),
  (("text").toList, JValue.jstr (("hi").toList)),
  (("attachments").toList, JValue.jarr [JValue.jobj c7attB])]

/-- Text-only edit fixture: new message. -/
def c7tm : JObj := [(("ts").toList, JValue.jstr (("1").toList)),
  (("text").toList, JValue.jstr (("hi").toList))]

/-- Text-only edit fixture: previous message. -/
def c7tp : JObj := [(("ts").toList, JValue.jstr (("1").toList)),
  (("text").toList, JValue.jstr (("yo").toList))]

/-- The single render request the text-only edit fixture produces. -/
def c7acts : List Action :=
  [Action.print ⟨1, 0, [], [], [], ("hi").toList, editedAnn⟩]

end Slackv

--==============================
-- supporting lemmas
--==============================

namespace Slackv

lemma matchRefAux_decomp (l : Str) (id : Str) (lab : Option Str) (rest : Str)
    (h : matchRefAux l = some (id, lab, rest)) : ∃ mid, l = mid ++ rest := by
  have hsplit := List.takeWhile_append_dropWhile (p := notDelim) (l := l)
  unfold matchRefAux at h
  split at h
  · simp at h
  case _ b bs heq1 _ =>
    rw [heq1] at hsplit
    generalize hTW : l.takeWhile notDelim = tW at h hsplit
    split at h
    case isTrue hb =>
      simp at h
      obtain ⟨hid, hlab, hrest⟩ := h
      subst hrest
      exact ⟨tW ++ [b], by rw [← hsplit]; simp⟩
    case isFalse hb =>
      split at h
      case isTrue hb2 =>
        have hsplit2 := List.takeWhile_append_dropWhile (p := notGt) (l := bs)
        split at h
        · simp at h
        case _ b2 rest2 heq3 _ =>
          rw [heq3] at hsplit2
          generalize hTG : bs.takeWhile notGt = tG at h hsplit2
          split at h
          case isTrue hq =>
            simp at h
            obtain ⟨hid, hlab, hrest⟩ := h
            subst hrest
            exact ⟨tW ++ b :: tG ++ [b2], by rw [← hsplit, ← hsplit2]; simp⟩
          case isFalse hq => simp at h
        · simp at h
      case isFalse hb2 => simp at h
  · simp at h

lemma matchRef_decomp (c : Char) (l : Str) (id : Str) (lab : Option Str) (rest : Str)
    (h : matchRef c l = some (id, lab, rest)) :
    ∃ b mid, l = '<' :: b :: mid ++ rest := by
  match l with
  | [] => simp [matchRef] at h
  | [a] => simp [matchRef] at h
  | a :: b :: t =>
    rw [show matchRef c (a :: b :: t) = if a = '<' ∧ b = c then matchRefAux t else none from rfl] at h
    split at h
    case isTrue hc =>
      obtain ⟨mid, hmid⟩ := matchRefAux_decomp t id lab rest h
      exact ⟨b, mid, by rw [hc.1, hmid]; simp⟩
    case isFalse hc => simp at h

lemma ltCount_append (a b : Str) : ltCount (a ++ b) = ltCount a + ltCount b := by
  simp [ltCount, List.countP_append]

lemma ltCount_cons (x : Char) (t : Str) :
    ltCount (x :: t) = (if x = '<' then 1 else 0) + ltCount t := by
  unfold ltCount
  rw [List.countP_cons]
  by_cases hx : x = '<' <;> simp [hx, Nat.add_comm]

lemma ltCount_nil : ltCount [] = 0 := rfl

lemma matchRef_ltCount (c : Char) (l : Str) (id : Str) (lab : Option Str) (rest : Str)
    (h : matchRef c l = some (id, lab, rest)) : ltCount rest < ltCount l := by
  obtain ⟨b, mid, hmid⟩ := matchRef_decomp c l id lab rest h
  rw [hmid, ltCount_append, ltCount_cons, ltCount_cons]
  simp

lemma findRef_ltCount (c : Char) (t : Str) (pre id : Str) (lab : Option Str) (rest : Str)
    (h : findRef c t = some (pre, id, lab, rest)) :
    ltCount pre + ltCount rest < ltCount t := by
  induction t generalizing pre with
  | nil => simp [findRef] at h
  | cons x xs ih =>
    unfold findRef at h
    rcases hm : matchRef c (x :: xs) with _ | ⟨⟨mid, mlab, mrest⟩⟩ <;> rw [hm] at h
    · rcases hf : findRef c xs with _ | ⟨⟨p2, i2, l2, r2⟩⟩ <;> rw [hf] at h
      · simp at h
      · simp at h
        obtain ⟨hpre, hid, hlab, hrest⟩ := h
        have := ih p2 (by rw [hf, hid, hlab, hrest])
        subst hpre
        rw [ltCount_cons x p2, ltCount_cons x xs]
        omega
    · simp at h
      obtain ⟨hpre, hid, hlab, hrest⟩ := h
      have hlt := matchRef_ltCount c (x :: xs) mid mlab mrest hm
      subst hpre
      subst hrest
      rw [ltCount_nil]
      omega

lemma cacheFind_mem (c : Cache) (key v : Str) (h : cacheFind c key = some v) :
    ∃ k, (k, v) ∈ c := by
  induction c with
  | nil => simp [cacheFind] at h
  | cons p rest ih =>
    unfold cacheFind at h
    split at h
    · simp at h
      exact ⟨p.1, by simp [← h]⟩
    · obtain ⟨k, hk⟩ := ih h
      exact ⟨k, List.mem_cons_of_mem _ hk⟩

lemma cacheGet_no_lt (c : Cache) (key : Str)
    (hben : ∀ p ∈ c, ('<' : Char) ∉ p.2) : ('<' : Char) ∉ cacheGet c key := by
  unfold cacheGet
  rcases hf : cacheFind c key with _ | v
  · simp
  · obtain ⟨k, hk⟩ := cacheFind_mem c key v hf
    simpa using hben (k, v) hk

lemma ltCount_eq_zero (t : Str) (h : ('<' : Char) ∉ t) : ltCount t = 0 := by
  simp only [ltCount, List.countP_eq_zero]
  intro a ha
  simp only [beq_iff_eq]
  rintro rfl
  exact h ha

lemma mentionStep_ltCount (cache : Cache) (t t2 : Str)
    (hben : ∀ p ∈ cache, ('<' : Char) ∉ p.2)
    (h : mentionStep cache t = some t2) : ltCount t2 < ltCount t := by
  unfold mentionStep at h
  rcases hf : findRef '@' t with _ | ⟨⟨pre, id, lab, rest⟩⟩ <;> rw [hf] at h
  · simp at h
  · simp at h
    have hlt := findRef_ltCount '@' t pre id lab rest hf
    have hname := ltCount_eq_zero _ (cacheGet_no_lt cache id hben)
    rw [← h, ltCount_append, ltCount_cons, ltCount_append, hname]
    simp
    omega

lemma mentionLoop_fix (cache : Cache) (hben : ∀ p ∈ cache, ('<' : Char) ∉ p.2) :
    ∀ fuel t, ltCount t < fuel → mentionStep cache (mentionLoop cache fuel t) = none := by
  intro fuel
  induction fuel with
  | zero => intro t ht; omega
  | succ n ih =>
    intro t ht
    rw [show mentionLoop cache (n + 1) t =
      (match mentionStep cache t with
        | none => t
        | some t2 => mentionLoop cache n t2) from rfl]
    rcases hs : mentionStep cache t with _ | t2
    · simpa using hs
    · simp only []
      exact ih t2 (by have := mentionStep_ltCount cache t t2 hben hs; omega)

lemma mentionLoop_id_of_none (cache : Cache) (t : Str)
    (h : mentionStep cache t = none) : ∀ fuel, mentionLoop cache fuel t = t := by
  intro fuel
  cases fuel with
  | zero => rfl
  | succ n =>
    rw [show mentionLoop cache (n + 1) t =
      (match mentionStep cache t with
        | none => t
        | some t2 => mentionLoop cache n t2) from rfl]
    rw [h]

lemma findRef_none_cons (c : Char) (x : Char) (xs : Str)
    (h : findRef c (x :: xs) = none) :
    matchRef c (x :: xs) = none ∧ findRef c xs = none := by
  unfold findRef at h
  rcases hm : matchRef c (x :: xs) with _ | ⟨⟨mid, mlab, mrest⟩⟩ <;> rw [hm] at h
  · rcases hf : findRef c xs with _ | r <;> rw [hf] at h
    · exact ⟨rfl, rfl⟩
    · simp at h
  · simp at h

lemma scanRefFuel_id_of_none (c : Char) (repl : Str → Option Str → Str) :
    ∀ fuel (t : Str), findRef c t = none → scanRefFuel c repl fuel t = t := by
  intro fuel
  induction fuel with
  | zero => intro t _; rfl
  | succ n ih =>
    intro t ht
    cases t with
    | nil => rfl
    | cons x xs =>
      obtain ⟨hm, hf⟩ := findRef_none_cons c x xs ht
      rw [show scanRefFuel c repl (n + 1) (x :: xs) =
        (match matchRef c (x :: xs) with
          | some (id, lab, rest) => repl id lab ++ scanRefFuel c repl n rest
          | none => x :: scanRefFuel c repl n xs) from rfl]
      rw [hm, ih xs hf]

lemma scanRef_id_of_none (c : Char) (repl : Str → Option Str → Str) (t : Str)
    (h : findRef c t = none) : scanRef c repl t = t :=
  scanRefFuel_id_of_none c repl t.length t h

lemma findRef_none_of_no_lt (c : Char) (t : Str) (h : ('<' : Char) ∉ t) :
    findRef c t = none := by
  induction t with
  | nil => rfl
  | cons x xs ih =>
    have hx : x ≠ '<' := fun hc => h (by rw [hc]; exact List.mem_cons_self _ _)
    have hxs : findRef c xs = none := ih (fun hc => h (List.mem_cons_of_mem _ hc))
    have hm : matchRef c (x :: xs) = none := by
      cases xs with
      | nil => rfl
      | cons b bs =>
        rw [show matchRef c (x :: b :: bs) =
          (if x = '<' ∧ b = c then matchRefAux bs else none) from rfl]
        rw [if_neg (by rintro ⟨rfl, _⟩; exact hx rfl)]
    unfold findRef
    rw [hm, hxs]
    rfl

lemma htmlUnescapeFuel_id_of_no_amp :
    ∀ fuel (t : Str), ('&' : Char) ∉ t → htmlUnescapeFuel fuel t = t := by
  intro fuel
  induction fuel with
  | zero => intro t _; rfl
  | succ n ih =>
    intro t ht
    cases t with
    | nil => rfl
    | cons x xs =>
      have hx : x ≠ '&' := fun hc => ht (by rw [hc]; exact List.mem_cons_self _ _)
      rw [show htmlUnescapeFuel (n + 1) (x :: xs) =
        (if x = '&' then
          match parseEntity xs with
          | some (c, rest2) => c :: htmlUnescapeFuel n rest2
          | none => '&' :: htmlUnescapeFuel n xs
        else x :: htmlUnescapeFuel n xs) from rfl]
      rw [if_neg hx, ih xs (fun hc => ht (List.mem_cons_of_mem _ hc))]

lemma htmlUnescape_id_of_no_amp (t : Str) (h : ('&' : Char) ∉ t) :
    htmlUnescape t = t :=
  htmlUnescapeFuel_id_of_no_amp t.length t h

lemma mentionStep_none_iff (cache : Cache) (t : Str) :
    mentionStep cache t = none ↔ findRef '@' t = none := by
  unfold mentionStep
  rcases hf : findRef '@' t with _ | r <;> simp

lemma unescape_id_of_plain (cache : Cache) (t : Str)
    (hlt : ('<' : Char) ∉ t) (hamp : ('&' : Char) ∉ t) : unescape cache t = t := by
  show htmlUnescape (mentionLoop cache
    (ltCount (keywordPass (channelPass t)) + 1) (keywordPass (channelPass t))) = t
  rw [show channelPass t = t from scanRef_id_of_none _ _ t (findRef_none_of_no_lt _ t hlt)]
  rw [show keywordPass t = t from scanRef_id_of_none _ _ t (findRef_none_of_no_lt _ t hlt)]
  rw [mentionLoop_id_of_none cache t
    ((mentionStep_none_iff cache t).mpr (findRef_none_of_no_lt _ t hlt))]
  exact htmlUnescape_id_of_no_amp t hamp

lemma replicate_append_cons (n : Nat) (x : Char) (l : Str) :
    List.replicate n x ++ x :: l = x :: (List.replicate n x ++ l) := by
  induction n with
  | zero => rfl
  | succ k ih => simp [List.replicate_succ, ih]

lemma findRef_badGrow (n : Nat) :
    findRef '@' (badGrow n) = some (List.replicate n '@', ("X").toList, none, []) := by
  induction n with
  | zero => rfl
  | succ k ih =>
    have hstep : badGrow (k + 1) = '@' :: badGrow k := by
      simp [badGrow, List.replicate_succ]
    rw [hstep]
    have hcons : ∃ y ys, badGrow k = y :: ys := by
      cases hk : badGrow k with
      | nil =>
        exfalso
        have : (badGrow k).length = k + 4 := by simp [badGrow, badSeed]
        rw [hk] at this
        simp at this
      | cons y ys => exact ⟨y, ys, rfl⟩
    obtain ⟨y, ys, hys⟩ := hcons
    rw [hys]
    have hm : matchRef '@' ('@' :: y :: ys) = none := by
      rw [show matchRef '@' ('@' :: y :: ys) =
        (if '@' = '<' ∧ y = '@' then matchRefAux ys else none) from rfl]
      rw [if_neg (by rintro ⟨h, _⟩; exact absurd h (by decide))]
    unfold findRef
    rw [hm, ← hys, ih]
    simp [List.replicate_succ]

lemma mentionStep_badGrow (n : Nat) :
    mentionStep badCache (badGrow n) = some (badGrow (n + 1)) := by
  unfold mentionStep
  rw [findRef_badGrow n]
  show some (List.replicate n '@' ++ '@' :: cacheGet badCache (("X").toList) ++ []) =
    some (badGrow (n + 1))
  congr 1
  rw [show cacheGet badCache (("X").toList) = ("<@X>").toList from rfl]
  simp [badGrow, badSeed, List.replicate_succ, replicate_append_cons]

lemma mentionLoop_badGrow (fuel : Nat) : ∀ k,
    mentionLoop badCache fuel (badGrow k) = badGrow (k + fuel) := by
  induction fuel with
  | zero => intro k; rfl
  | succ n ih =>
    intro k
    rw [show mentionLoop badCache (n + 1) (badGrow k) =
      (match mentionStep badCache (badGrow k) with
        | none => badGrow k
        | some t2 => mentionLoop badCache n t2) from rfl]
    rw [mentionStep_badGrow k]
    show mentionLoop badCache n (badGrow (k + 1)) = badGrow (k + (n + 1))
    rw [ih (k + 1)]
    congr 1
    omega

lemma waitSeq_eq (n : Nat) : waitSeq n = min (2 ^ n) 15 := by
  induction n with
  | zero => rfl
  | succ n ih =>
    have h2 : 2 ^ (n + 1) = 2 ^ n * 2 := by rw [pow_succ]
    rw [show waitSeq (n + 1) = nextWait (waitSeq n) from rfl, ih]
    unfold nextWait
    rcases Nat.le_total (2 ^ n) 15 with h | h
    · rw [Nat.min_eq_left h, ← h2]
    · rw [Nat.min_eq_right h]
      have h15 : 15 ≤ 2 ^ (n + 1) :=
        le_trans h (Nat.pow_le_pow_right (by omega) (by omega))
      rw [Nat.min_eq_right h15]
      decide

lemma length_ne_zero_beq (t : Str) (h : t ≠ []) : (t.length == 0) = false := by
  cases t with
  | nil => exact absurd rfl h
  | cons x xs => rfl

lemma printMessage_cfg0_out (s : AppState) (ts th : Nat)
    (ch ut u txt an : Str) (htxt : txt ≠ []) :
    printMessage cfg0 s ts th ch ut u txt an =
      ({ s with lastChannel := ch, lastUser := u, lastThreadTs := th },
        (if ch ≠ s.lastChannel then [OutLine.sep, OutLine.header (ut ++ u) ch ts th]
         else if u ≠ s.lastUser ∨ th ≠ s.lastThreadTs then [OutLine.header (ut ++ u) ch ts th]
         else []) ++ [OutLine.body (unescape s.idNameMap txt) an]) := by
  unfold printMessage
  rw [show equalsAnyKeywords ch cfg0.muteChannels = false from rfl]
  rw [show equalsAnyKeywords u cfg0.muteUsers = false from rfl]
  rw [length_ne_zero_beq txt htxt]
  simp [matchAnyPatterns, cfg0]

end Slackv

--==============================
-- claim theorems
--==============================

namespace Slackv

/-- C1 counterexample: a no-subtype message frame carrying channel and
user but no text makes `onPureMessage` hit the unchecked assertion
`msg["text"].(string)` and panic (modelled as `none`), so the claim that
a missing text/user/channel field never causes a failure is false. -/
theorem c1_counterexample : handleFrame [] c1frame = none := rfl

/-- C1 (amended): fields read through the checked accessors — user,
channel, ts, thread_ts, subtype — are treated as not present when
absent and rendered empty, and such a frame is handled without failure;
a no-subtype message frame missing only its text is the case that
panics (see the counterexample). -/
theorem c1_missing_field_handling (cache : Cache) (t : Str) :
    handleFrame cache (pureTextFrame t) =
      some [Action.print ⟨0, 0, [], [], [], t, []⟩] := rfl

/-- C2: the reconnect backoff starts at 1, doubles after each
consecutive failure, caps at 15 (waits 1, 2, 4, 8, 15, 15, ...), and a
successful connection resets the wait to 1 (so the sleep after the next
stream failure is 1 and the carried wait is 2). -/
theorem c2_backoff_sequence :
    (∀ n, waitSeq n = min (2 ^ n) 15)
    ∧ (List.range 6).map waitSeq = [1, 2, 4, 8, 15, 15]
    ∧ (∀ w, loopIter w ConnOutcome.success = (1, 2)) :=
  ⟨waitSeq_eq, by decide, fun w => rfl⟩

/-- C3 counterexample: an unlabelled channel reference expands to a bare
`#` (the `#$3` replacement never consults the cache), and an unlabelled
keyword expands to a bare `@`, contradicting the claimed outputs
`"#test_group foo"` and `"@here foo"`. -/
theorem c3_counterexample :
    unescape cacheG (("<#G01234> foo").toList) = ("# foo").toList
    ∧ ("# foo").toList ≠ ("#test_group foo").toList
    ∧ unescape [] (("<!here> foo").toList) = ("@ foo").toList
    ∧ ("@ foo").toList ≠ ("@here foo").toList :=
  ⟨by decide, by decide, by decide, by decide⟩

/-- C3 (amended): the actual outputs of `unescape` on the claimed
inputs: the labelled channel case matches the claim (via the inline
label, not the cache); the unlabelled channel case yields `"# foo"`;
keyword references are replaced with `@$2`, which keeps the pipe of a
label and drops nothing else, so `<!here|here>` gives `"@|here"`,
`<!here>` gives `"@"`, and the subteam case gives `"@|@hoge-piyo"`. -/
theorem c3_markup_expansion :
    unescape cacheG (("<#G01234|test_group> foo").toList) = ("#test_group foo").toList
    ∧ unescape cacheG (("<#G01234> foo").toList) = ("# foo").toList
    ∧ unescape [] (("<!here|here> foo").toList) = ("@|here foo").toList
    ∧ unescape [] (("<!here> foo").toList) = ("@ foo").toList
    ∧ unescape cacheS (("<!subteam^S1A2B3C4D|@hoge-piyo> foo").toList)
        = ("@|@hoge-piyo foo").toList :=
  ⟨by decide, by decide, by decide, by decide, by decide⟩

set_option maxRecDepth 40000 in
/-- C4 counterexample: a plain (no-subtype) message whose text has 1001
characters is rendered with all 1001 characters — only attachment text
is truncated, so "for every handled message subtype" is false. -/
theorem c4_counterexample :
    connStep cfg0 sInit (ConnEvent.frame c4frame) =
      some (sInit, [OutLine.body (List.replicate 1001 'a') []])
    ∧ (List.replicate 1001 'a').length ≠ 1000 + 3 :=
  ⟨rfl, by simp⟩

/-- C4 (amended): attachment body text longer than 1000 (bytes in Go,
characters here — they coincide on ASCII) is truncated by
`getAttachmentText` to exactly the first 1000 characters plus the
3-character `"..."`; other subtype bodies are not truncated (see the
counterexample). -/
theorem c4_truncation (att : JObj) (t : Str)
    (h : strField att (("text").toList) = some t) (hlen : t.length > 1000) :
    (getAttachmentText att).1 = t.take 1000 ++ ("...").toList
    ∧ ((getAttachmentText att).1).length = 1003 := by
  have h1 : (getAttachmentText att).1 = t.take 1000 ++ ("...").toList := by
    unfold getAttachmentText
    simp only [h]
    simp [hlen]
  refine ⟨h1, ?_⟩
  rw [h1]
  simp [List.length_take]
  omega

/-- C4 witness: the 1001-character attachment is cut to 1003 output
characters. -/
theorem c4_truncation_witness :
    strField c4att (("text").toList) = some (List.replicate 1001 'a')
    ∧ ((getAttachmentText c4att).1).length = 1003 := by
  refine ⟨rfl, ?_⟩
  exact (c4_truncation c4att (List.replicate 1001 'a') rfl
    (by rw [List.length_replicate]; omega)).2

/-- C5 counterexample: a `message_replied` frame produces rendered
output (a header, because the thread timestamp changed, and a body) and
updates the render state, so it is not silently dropped. -/
theorem c5_counterexample :
    connStep cfg0 sInit (ConnEvent.frame c5frame) =
      some (⟨[], [], [], 5⟩, [OutLine.header [] [] 0 5, OutLine.body (("hi").toList) []])
    ∧ (⟨[], [], [], 5⟩ : AppState) ≠ sInit :=
  ⟨rfl, by decide⟩

/-- C5 (amended): `onMessage` dispatches `message_replied` frames to
`onMessageReplied`, which renders the nested message; the silently
dropped subtype is `file_mention` (and unrecognized subtypes). -/
theorem c5_message_replied (cache : Cache) (u t : Str) :
    handleFrame cache (repliedFrame u t) =
      some [Action.print ⟨0, 0, [], [], cacheGet cache u, t, []⟩]
    ∧ handleFrame cache fmFrame = some [] :=
  ⟨rfl, rfl⟩

/-- C6 counterexample: an entry added by a `user_change` event is
present after the event but gone after the next successful reconnect,
because `connect` rebuilds the id-name map from the session payload. -/
theorem c6_counterexample :
    (runEvents cfg0 sInit [ConnEvent.connected s6, ConnEvent.frame ucFrame]).map
        (fun r => cacheFind r.1.idNameMap (("U1").toList)) = some (some (("alice").toList))
    ∧ (runEvents cfg0 sInit [ConnEvent.connected s6, ConnEvent.frame ucFrame,
        ConnEvent.connected s6]).map
        (fun r => cacheFind r.1.idNameMap (("U1").toList)) = some none :=
  ⟨rfl, rfl⟩

/-- C6 (amended): every successful (re)connection executes
`g_IdNameMap = generateIdNameMap(session)`, replacing the whole map with
one built from the new session payload, whatever the previous cache
content was. -/
theorem c6_cache_reconnect (cfg : NotificationConfig) (s : AppState)
    (session : SlackSession) :
    connStep cfg s (ConnEvent.connected session) =
      some ({ s with idNameMap := generateIdNameMap session }, []) := rfl

/-- C7 counterexample: the two nested messages differ in their first
attachment's title field ("a" vs "b"), yet `onMessageChanged` produces
zero render requests — the Go shadowing bug drops the title from the
comparison. -/
theorem c7_counterexample :
    strField c7attA (("title").toList) = some (("a").toList)
    ∧ strField c7attB (("title").toList) = some (("b").toList)
    ∧ onMessageChanged [] (chgFrame c7m c7p) = some [] :=
  ⟨rfl, rfl, rfl⟩

/-- C7 (amended): when `onMessageChanged` completes without a panic,
identical visible text plus identical RENDERED first-attachment content
(title box from service_name/author_name/footer plus body text — the
attachment title field is dropped by shadowing) yields zero render
requests, and a difference in either the visible text or that rendered
attachment content yields at least one. -/
theorem c7_edit_diffing (cache : Cache) (m p : JObj) (acts : List Action)
    (h : onMessageChanged cache (chgFrame m p) = some acts) :
    (getText m = getText p ∧ attRendered m = attRendered p → acts = [])
    ∧ (getText m ≠ getText p → acts ≠ [])
    ∧ (attRendered m ≠ attRendered p → acts ≠ []) := by
  rw [show onMessageChanged cache (chgFrame m p) =
    (do
      let ts ← getTimestamp m
      let threadTs ← getThreadTs (chgFrame m p)
      let channel ← getChannel cache (chgFrame m p)
      let userType := getUserType (chgFrame m p)
      let user ← getUser cache m
      let text ← getText m
      let prevText ← getText p
      let first :=
        if text == prevText then []
        else [Action.print ⟨ts, threadTs, channel, userType, user, text, editedAnn⟩]
      let att ← getAttachmentsText m
      let attText := att.2 ++ att.1
      let prevAtt ← getAttachmentsText p
      let prevAttText := prevAtt.2 ++ prevAtt.1
      let second :=
        if attText == prevAttText then []
        else [Action.print ⟨ts, threadTs, channel, userType, user, attText, []⟩,
          Action.resetLastUser]
      some (first ++ second)) from rfl] at h
  rcases hts : getTimestamp m with _ | ts <;> rw [hts] at h
  · simp at h
  rcases htx : getText m with _ | tm <;> rw [htx] at h
  · simp at h
  rcases hpx : getText p with _ | tp <;> rw [hpx] at h
  · simp at h
  rcases ham : getAttachmentsText m with _ | am <;> rw [ham] at h
  · simp at h
  rcases hap : getAttachmentsText p with _ | ap2 <;> rw [hap] at h
  · simp at h
  rw [show getThreadTs (chgFrame m p) = some 0 from rfl] at h
  rw [show getChannel cache (chgFrame m p) = some [] from rfl] at h
  rcases hu : getUser cache m with _ | uu <;> rw [hu] at h
  · simp at h
  simp only [Option.some_bind] at h
  replace h := Option.some.inj h
  subst h
  refine ⟨?_, ?_, ?_⟩
  · rintro ⟨heq, hatt⟩
    have htm : tm = tp := Option.some.inj heq
    have hattv : am.2 ++ am.1 = ap2.2 ++ ap2.1 := by
      rw [attRendered, attRendered, ham, hap] at hatt
      exact Option.some.inj hatt
    simp [htm, hattv]
  · intro hne
    have htm : tm ≠ tp := fun hc => hne (by rw [hc])
    have hb : (tm == tp) = false := beq_eq_false_iff_ne.mpr htm
    simp [hb]
  · intro hne
    have hattv : am.2 ++ am.1 ≠ ap2.2 ++ ap2.1 := by
      intro hc
      apply hne
      rw [attRendered, attRendered, ham, hap]
      show some (am.2 ++ am.1) = some (ap2.2 ++ ap2.1)
      rw [hc]
    have hb : (am.2 ++ am.1 == ap2.2 ++ ap2.1) = false := beq_eq_false_iff_ne.mpr hattv
    simp [hb]

/-- C7 witness: a text-only edit ("yo" to "hi") yields exactly one
render request. -/
theorem c7_edit_diffing_witness :
    onMessageChanged [] (chgFrame c7tm c7tp) = some c7acts ∧ c7acts ≠ [] := by
  refine ⟨rfl, ?_⟩
  exact (c7_edit_diffing [] c7tm c7tp c7acts rfl).2.1 (by decide)

/-- C8 counterexample: input `"&amp;amp;"` normalizes to `"&amp;"`,
which contains no markup of any of the three kinds, yet a second pass
decodes it further to `"&"` — the claim's idempotence fails because the
html entity stage re-applies. -/
theorem c8_counterexample :
    unescape [] (("&amp;amp;").toList) = ("&amp;").toList
    ∧ findRef '#' (("&amp;").toList) = none
    ∧ findRef '@' (("&amp;").toList) = none
    ∧ findRef '!' (("&amp;").toList) = none
    ∧ unescape [] (("&amp;").toList) = ("&").toList
    ∧ ("&").toList ≠ ("&amp;").toList :=
  ⟨by decide, by decide, by decide, by decide, by decide, by decide⟩

/-- C8 (amended): `unescape` is idempotent on any input whose one-pass
output contains no further markup of any kind AND no `&` character (so
nothing for the html entity stage to decode again). -/
theorem c8_idempotence (cache : Cache) (t : Str)
    (h1 : findRef '#' (unescape cache t) = none)
    (h2 : findRef '!' (unescape cache t) = none)
    (h3 : findRef '@' (unescape cache t) = none)
    (h4 : ('&' : Char) ∉ unescape cache t) :
    unescape cache (unescape cache t) = unescape cache t := by
  generalize hy : unescape cache t = y at h1 h2 h3 h4 ⊢
  show htmlUnescape (mentionLoop cache
    (ltCount (keywordPass (channelPass y)) + 1) (keywordPass (channelPass y))) = y
  rw [show channelPass y = y from scanRef_id_of_none _ _ y h1]
  rw [show keywordPass y = y from scanRef_id_of_none _ _ y h2]
  rw [mentionLoop_id_of_none cache y ((mentionStep_none_iff cache y).mpr h3)]
  exact htmlUnescape_id_of_no_amp y h4

/-- C8 witness: a markup-free, escape-free text is a fixed point of a
second pass. -/
theorem c8_idempotence_witness :
    findRef '#' (unescape [] (("hello").toList)) = none
    ∧ unescape [] (unescape [] (("hello").toList)) = unescape [] (("hello").toList) := by
  refine ⟨by decide, ?_⟩
  exact c8_idempotence [] (("hello").toList) (by decide) (by decide) (by decide) (by decide)

/-- C9 counterexample: with the cached name of `X` itself containing the
mention `<@X>`, each iteration of the mention loop re-creates a match,
so no number of iterations ever reaches a fixpoint — the Go
`for isMatching` loop runs forever on this input. -/
theorem c9_counterexample :
    ¬ ∃ fuel, mentionStep badCache (mentionLoop badCache fuel badSeed) = none := by
  rintro ⟨fuel, hfix⟩
  have h0 : badSeed = badGrow 0 := rfl
  rw [h0, mentionLoop_badGrow fuel 0, mentionStep_badGrow] at hfix
  simp at hfix

/-- C9 (amended): when no cached name contains a `<`, the mention
fixpoint is reached within one iteration per `<` of the input (so the
Go loop terminates on every text, malformed markup included); and if a
text has no well-formed mention match at all, the loop returns it
verbatim at once. -/
theorem c9_termination (cache : Cache)
    (hben : ∀ p ∈ cache, ('<' : Char) ∉ p.2) (t : Str) :
    mentionStep cache (mentionLoop cache (ltCount t + 1) t) = none
    ∧ (findRef '@' t = none → ∀ fuel, mentionLoop cache fuel t = t) := by
  constructor
  · exact mentionLoop_fix cache hben (ltCount t + 1) t (by omega)
  · intro hnone fuel
    exact mentionLoop_id_of_none cache t ((mentionStep_none_iff cache t).mpr hnone) fuel

/-- C9 witness: an unterminated mention `"<@ab"` under a benign cache
reaches the fixpoint. -/
theorem c9_termination_witness :
    (∀ p ∈ ([(("X").toList, ("x").toList)] : Cache), ('<' : Char) ∉ p.2)
    ∧ mentionStep [(("X").toList, ("x").toList)]
        (mentionLoop [(("X").toList, ("x").toList)]
          (ltCount (("<@ab").toList) + 1) (("<@ab").toList)) = none := by
  refine ⟨by decide, ?_⟩
  exact (c9_termination [(("X").toList, ("x").toList)] (by decide) (("<@ab").toList)).1

/-- C10: two consecutive unsuppressed entries with identical channel,
sender and thread timestamp print exactly one header and two bodies
(starting from the fresh render state, with a nonempty channel name);
after the first entry, changing exactly the sender or exactly the
thread timestamp forces a header with no separator, and changing the
channel forces a header with the blank separator line. -/
theorem c10_header_suppression (cache : Cache) (ts1 ts2 th : Nat)
    (ch ut1 ut2 u txt1 txt2 an1 an2 : Str)
    (hch : ch ≠ []) (h1 : txt1 ≠ []) (h2 : txt2 ≠ []) :
    (countHeaders (renderPair cache ⟨ts1, th, ch, ut1, u, txt1, an1⟩
        ⟨ts2, th, ch, ut2, u, txt2, an2⟩) = 1
      ∧ countBodies (renderPair cache ⟨ts1, th, ch, ut1, u, txt1, an1⟩
        ⟨ts2, th, ch, ut2, u, txt2, an2⟩) = 2)
    ∧ (∀ u2, u2 ≠ u →
        countHeaders (printMessage cfg0 ⟨cache, u, ch, th⟩ ts2 th ch ut2 u2 txt2 an2).2 = 1
        ∧ countSeps (printMessage cfg0 ⟨cache, u, ch, th⟩ ts2 th ch ut2 u2 txt2 an2).2 = 0)
    ∧ (∀ th2, th2 ≠ th →
        countHeaders (printMessage cfg0 ⟨cache, u, ch, th⟩ ts2 th2 ch ut2 u txt2 an2).2 = 1
        ∧ countSeps (printMessage cfg0 ⟨cache, u, ch, th⟩ ts2 th2 ch ut2 u txt2 an2).2 = 0)
    ∧ (∀ ch2, ch2 ≠ ch →
        countHeaders (printMessage cfg0 ⟨cache, u, ch, th⟩ ts2 th ch2 ut2 u txt2 an2).2 = 1
        ∧ countSeps (printMessage cfg0 ⟨cache, u, ch, th⟩ ts2 th ch2 ut2 u txt2 an2).2 = 1) := by
  refine ⟨?_, ?_, ?_, ?_⟩
  · unfold renderPair
    simp only [printMessage_cfg0_out _ _ _ _ _ _ _ _ h1,
      printMessage_cfg0_out _ _ _ _ _ _ _ _ h2]
    simp [hch, countHeaders, countBodies]
  · intro u2 hu
    simp only [printMessage_cfg0_out _ _ _ _ _ _ _ _ h2]
    simp [hu, countHeaders, countSeps]
  · intro th2 hth
    simp only [printMessage_cfg0_out _ _ _ _ _ _ _ _ h2]
    simp [hth, countHeaders, countSeps]
  · intro ch2 hc2
    simp only [printMessage_cfg0_out _ _ _ _ _ _ _ _ h2]
    simp [hc2, countHeaders, countSeps]

/-- C10 witness: two concrete same-key entries from the fresh state
produce exactly one header. -/
theorem c10_header_suppression_witness :
    ("c").toList ≠ ([] : Str)
    ∧ countHeaders (renderPair [] ⟨0, 0, ("c").toList, [], ("u").toList, ("x").toList, []⟩
        ⟨0, 0, ("c").toList, [], ("u").toList, ("y").toList, []⟩) = 1 := by
  refine ⟨by decide, ?_⟩
  exact (c10_header_suppression [] 0 0 0 (("c").toList) [] [] (("u").toList)
    (("x").toList) (("y").toList) [] [] (by decide) (by decide) (by decide)).1.1

end Slackv
